import Mathlib

/-!
# Schema storage on MySQL (package schema, storage_mysql.go)

A shallow embedding of the MySQL backed schema store: the table
tb_schema_data, the SQL statements the store issues, and the Go methods
NewMysqlStorage, SaveSnapshot, LoadLastSnapshot, SaveStatement,
LoadNextStatement, Reset and purge.

Modelling conventions.

* A Go byte slice is a `ByteSlice`: `none` is the nil slice, `some bytes` a
  slice that is not nil (`some []` the empty one). The driver sends a nil slice
  as NULL, and Scan stores a slice that is not nil for a column value that is
  not NULL.
* The database server is outside the source. What it answers is made explicit:
  every call takes an `Env` giving the server clock and, for each round trip,
  whether the driver or the server reports a failure of its own. A statement
  that names a column the table does not have fails with `UnknownColumn`,
  whatever the `Env` says.
* `CREATE TABLE IF NOT EXISTS` leaves an existing table as it is, so the name of
  the creation-time column is part of the table state: it is `time` for a table
  created by `initQuery`, and may be another name for a table that was there
  before. The other columns are those of `initQuery`, with their constraints.
* Transactions are those of a transactional engine: statements of a transaction
  work on a private copy of the rows, commit publishes it, rollback drops it.
  The auto-increment counter is not rolled back.
* Date and time values are seconds on the server's local time line; the date of
  a value is its day number.
-/

namespace Schema

/-- Modelled from the spec: the type prog.Position, whose declaration is in
another package (server id, binlog name, binlog offset). -/
structure Position where
  ServerID : Nat
  Name : String
  Pos : Nat
  deriving DecidableEq, Repr

/-- A Go value of type []byte: `none` is the nil slice, `some bytes` a slice
that is not nil with these contents. -/
abbrev ByteSlice : Type := Option (List Nat)

/-- The zero value of Position, what `var pos prog.Position` holds. -/
def Position.zero : Position := ⟨0, "", 0⟩

/-- Values of the column `type ENUM('snapshot','statement')`. -/
inductive RecordType where
  | snapshot
  | statement
  deriving DecidableEq, Repr

/-- One row of tb_schema_data. The field `time` is the value of the row's
creation-time column (`DATETIME NOT NULL DEFAULT CURRENT_TIMESTAMP`). -/
structure Record where
  id : Int
  server_id : Nat
  name : String
  pos : Nat
  snapshot : List Nat
  statement : List Nat
  type : RecordType
  time : Nat
  deriving DecidableEq, Repr

/-- The table tb_schema_data as it exists in the database. -/
structure Table where
  timeColumn : String
  rows : List Record
  autoInc : Int
  deriving DecidableEq, Repr

/-- Column names of `initQuery`, in the order of the CREATE TABLE statement. -/
def initQuery : List String :=
  ["id", "server_id", "name", "pos", "snapshot", "statement", "type", "time"]

/-- Column names of a table. -/
def Table.columns (t : Table) : List String :=
  ["id", "server_id", "name", "pos", "snapshot", "statement", "type", t.timeColumn]

/-- The table that executing `initQuery` creates when there is none. -/
def Table.created : Table := ⟨"time", [], 1⟩

/-- Go error values that the store can return. -/
inductive Error where
  | ErrNoRows
  | UnknownColumn (column : String)
  | NullColumn (column : String)
  | Backend (code : Nat)
  deriving DecidableEq, Repr

/-- What the environment contributes to one call: the server clock and, per
round trip, the code of a failure reported by the driver or the server
(`none` when that round trip is healthy). -/
structure Env where
  now : Nat
  openErr : Option Nat
  beginErr : Option Nat
  createErr : Option Nat
  insertErr : Option Nat
  queryErr : Option Nat
  deleteErr : Option Nat
  commitErr : Option Nat
  deriving DecidableEq, Repr

/-- An environment in which no round trip fails. -/
def Env.healthy (now : Nat) : Env :=
  ⟨now, none, none, none, none, none, none, none⟩

/-- Name resolution of a statement: the first referenced column that the table
does not have is reported. -/
def unknownColumn (t : Table) (refs : List String) : Option Error :=
  match refs.find? (fun c => !(t.columns.contains c)) with
  | some c => some (Error.UnknownColumn c)
  | none => none

/-- Outcome of one statement: the failure the environment injects, else the
failure of name resolution, else none. -/
def statementErr (injected : Option Nat) (t : Table) (refs : List String) : Option Error :=
  match injected with
  | some c => some (Error.Backend c)
  | none => unknownColumn t refs

/-- The function `datediff(a, b)`: difference of the day numbers. -/
def datediff (a b : Nat) : Int := ((a / 86400 : Nat) : Int) - ((b / 86400 : Nat) : Int)

/-- The row with the greatest id among the rows of type snapshot:
`WHERE type='snapshot' ORDER BY id DESC LIMIT 1`. -/
def lastSnapshot : List Record → Option Record
  | [] => none
  | r :: rs =>
    match lastSnapshot rs with
    | none => if r.type = RecordType.snapshot then some r else none
    | some b => if r.type = RecordType.snapshot ∧ b.id < r.id then some r else some b

/-- Columns named by the INSERT of SaveSnapshot. -/
def insertRefs : List String := ["server_id", "name", "pos", "snapshot", "statement", "type"]

/-- Columns named by the SELECT of LoadLastSnapshot. -/
def selectSnapshotRefs : List String := ["server_id", "name", "pos", "snapshot", "type", "id"]

/-- Columns named by the SELECT of purge. -/
def selectIdRefs : List String := ["id", "type"]

/-- Columns named by the DELETE of purge. -/
def deleteRefs : List String := ["id", "create_time"]

/-- The row that the INSERT of SaveSnapshot adds: id from the auto-increment
counter, statement the empty string, type snapshot, creation time the current
timestamp. -/
def newRecord (env : Env) (t : Table) (data : List Nat) (pos : Position) : Record :=
  { id := t.autoInc, server_id := pos.ServerID, name := pos.Name, pos := pos.Pos,
    snapshot := data, statement := [], type := RecordType.snapshot, time := env.now }

/-- The table after the INSERT of SaveSnapshot has added its row: the row is
appended and the auto-increment counter has advanced. -/
def afterInsert (env : Env) (tx : Table) (data : List Nat) (pos : Position) : Table :=
  { tx with rows := tx.rows ++ [newRecord env tx data pos], autoInc := tx.autoInc + 1 }

/-- The statement
`INSERT INTO tb_schema_data SET server_id=?, name=?, pos=?, snapshot=?, statement='', type = ?`
run on the rows a transaction sees. A nil slice for `snapshot=?` is NULL, which
the column `snapshot LONGBLOB NOT NULL` rejects. -/
def execInsert (env : Env) (tx : Table) (data : ByteSlice) (pos : Position) :
    Option Error × Table :=
  match statementErr env.insertErr tx insertRefs with
  | some e => (some e, tx)
  | none =>
    match data with
    | none => (some (Error.NullColumn "snapshot"), tx)
    | some bytes => (none, afterInsert env tx bytes pos)

/-- The condition `id < ? AND datediff(curdate(),create_time) >= 7` of the
DELETE of purge, on one row. -/
def expired (env : Env) (lastSnapshotId : Int) (r : Record) : Bool :=
  decide (r.id < lastSnapshotId) && decide (7 ≤ datediff env.now r.time)

/-- The statement
`DELETE FROM tb_schema_data WHERE id < ? AND datediff(curdate(),create_time) >= 7`
run on the rows a transaction sees. -/
def execDelete (env : Env) (tx : Table) (lastSnapshotId : Int) : Option Error × Table :=
  match statementErr env.deleteErr tx deleteRefs with
  | some e => (some e, tx)
  | none => (none, { tx with rows := tx.rows.filter (fun r => !(expired env lastSnapshotId r)) })

/-- The query of purge followed by `row.Scan(&lastSnapshotId)`: the error of
Scan and the value of lastSnapshotId afterwards (0 when nothing was scanned). -/
def scanLastSnapshotId (env : Env) (tx : Table) : Option Error × Int :=
  match statementErr env.queryErr tx selectIdRefs with
  | some e => (some e, 0)
  | none =>
    match lastSnapshot tx.rows with
    | none => (some Error.ErrNoRows, 0)
    | some r => (none, r.id)

/-- The method purge, on the rows the transaction sees. -/
def purge (env : Env) (tx : Table) : Option Error × Table :=
  let scanned := scanLastSnapshotId env tx
  if scanned.1 ≠ none ∧ scanned.1 ≠ some Error.ErrNoRows then
    (scanned.1, tx)
  else
    execDelete env tx scanned.2

/-- Rollback of a transaction that worked on `tx`, started from `t`: the rows
of `t` stay, the auto-increment counter keeps what the transaction used. -/
def rollback (t tx : Table) : Table := { t with autoInc := tx.autoInc }

/-- The method SaveSnapshot: the error it returns and the table afterwards. -/
def SaveSnapshot (env : Env) (t : Table) (data : ByteSlice) (pos : Position) :
    Option Error × Table :=
  match env.openErr with
  | some c => (some (Error.Backend c), t)
  | none =>
    match env.beginErr with
    | some c => (some (Error.Backend c), t)
    | none =>
      let inserted := execInsert env t data pos
      match inserted.1 with
      | some e => (some e, rollback t inserted.2)
      | none =>
        let purged := purge env inserted.2
        match purged.1 with
        | some e => (some e, rollback t purged.2)
        | none =>
          match env.commitErr with
          | some c => (some (Error.Backend c), rollback t purged.2)
          | none => (none, purged.2)

/-- The query of LoadLastSnapshot followed by
`row.Scan(&pos.ServerID, &pos.Name, &pos.Pos, &data)`: data, pos and the error
of Scan (data and pos keep their zero values, the nil slice and the zero
Position, when nothing was scanned). -/
def scanLastSnapshot (env : Env) (t : Table) : ByteSlice × Position × Option Error :=
  match statementErr env.queryErr t selectSnapshotRefs with
  | some e => (none, Position.zero, some e)
  | none =>
    match lastSnapshot t.rows with
    | none => (none, Position.zero, some Error.ErrNoRows)
    | some r => (some r.snapshot, ⟨r.server_id, r.name, r.pos⟩, none)

/-- The method LoadLastSnapshot: data, position, error. -/
def LoadLastSnapshot (env : Env) (t : Table) : ByteSlice × Position × Option Error :=
  match env.openErr with
  | some c => (none, Position.zero, some (Error.Backend c))
  | none =>
    let scanned := scanLastSnapshot env t
    if scanned.2.2 ≠ none ∧ scanned.2.2 ≠ some Error.ErrNoRows then
      (none, scanned.2.1, scanned.2.2)
    else
      (scanned.1, scanned.2.1, none)

/-- The method SaveStatement: returns nil and touches nothing. -/
def SaveStatement (_env : Env) (t : Table) (_db : String) (_statement : String)
    (_pos : Position) : Option Error × Table :=
  (none, t)

/-- The method LoadNextStatement: database, statement, position, error. -/
def LoadNextStatement (_env : Env) (_t : Table) (_prePos : Position) :
    String × String × Position × Option Error :=
  ("", "", Position.zero, none)

/-- The method Reset: `DELETE FROM tb_schema_data` outside any transaction. -/
def Reset (env : Env) (t : Table) : Option Error × Table :=
  match env.openErr with
  | some c => (some (Error.Backend c), t)
  | none =>
    match statementErr env.deleteErr t [] with
    | some e => (some e, t)
    | none => (none, { t with rows := [] })

/-- The constructor NewMysqlStorage on a database in which the table is absent
(`none`) or present: the error and the table afterwards. -/
def NewMysqlStorage (env : Env) (db : Option Table) : Option Error × Option Table :=
  match env.openErr with
  | some c => (some (Error.Backend c), db)
  | none =>
    match env.createErr with
    | some c => (some (Error.Backend c), db)
    | none =>
      match db with
      | some t => (none, some t)
      | none => (none, some Table.created)

/-- A call of one of the two save methods, with its arguments. -/
inductive Call where
  | SaveSnapshot (data : ByteSlice) (pos : Position)
  | SaveStatement (db : String) (statement : String) (pos : Position)
  deriving DecidableEq, Repr

/-- Runs one call in its environment. -/
def Call.run (env : Env) (t : Table) : Call → Option Error × Table
  | Call.SaveSnapshot data pos => Schema.SaveSnapshot env t data pos
  | Call.SaveStatement db statement pos => Schema.SaveStatement env t db statement pos

/-- Runs a sequence of calls, each in its own environment: whether every call
returned nil, and the table after the last call. -/
def runCalls (t : Table) : List (Env × Call) → Bool × Table
  | [] => (true, t)
  | c :: rest =>
    let first := c.2.run c.1 t
    let others := runCalls first.2 rest
    (first.1.isNone && others.1, others.2)

/-- Arguments of the last SaveSnapshot call of a sequence, if there is one. -/
def lastSaved : List (Env × Call) → Option (ByteSlice × Position)
  | [] => none
  | c :: rest =>
    match lastSaved rest with
    | some a => some a
    | none =>
      match c.2 with
      | Call.SaveSnapshot data pos => some (data, pos)
      | Call.SaveStatement _ _ _ => none

/-- An empty table tb_schema_data that was in the database before the store was
constructed and names its creation-time column create_time. -/
def legacyTable : Table := ⟨"create_time", [], 1⟩

/-- Positions of the scenario: two snapshots and a DDL statement in between. -/
def posS1 : Position := ⟨1, "bin.000001", 100⟩

/-- Position of the DDL statement of the scenario. -/
def posDDL : Position := ⟨1, "bin.000001", 200⟩

/-- Position of the second snapshot of the scenario. -/
def posS2 : Position := ⟨1, "bin.000002", 50⟩

/-- The scenario: snapshot S1, the statement ALTER TABLE for database d,
snapshot S2, each in a healthy environment. -/
def scenarioCalls : List (Env × Call) :=
  [(Env.healthy 100, Call.SaveSnapshot (some [1]) posS1),
   (Env.healthy 200, Call.SaveStatement "d" "ALTER TABLE t ADD COLUMN c" posDDL),
   (Env.healthy 300, Call.SaveSnapshot (some [2]) posS2)]

/-- A snapshot row created at time 0. -/
def oldSnapshot : Record := ⟨1, 1, "bin.000001", 100, [1], [], RecordType.snapshot, 0⟩

/-- A table with a column create_time that holds one snapshot, created at
time 0. -/
def agedTable : Table := ⟨"create_time", [oldSnapshot], 2⟩

/-- A statement row created at time 0, with an id above both snapshots of
mixedTable. -/
def lateStatement : Record := ⟨3, 1, "bin.000001", 300, [], [65], RecordType.statement, 0⟩

/-- A table with a column create_time that holds two snapshots and a later
statement row, all created at time 0. -/
def mixedTable : Table :=
  ⟨"create_time",
    [oldSnapshot, ⟨2, 1, "bin.000001", 200, [2], [], RecordType.snapshot, 0⟩, lateStatement], 4⟩

/-- A snapshot row created one second before the end of day 0. -/
def lateEveningSnapshot : Record :=
  ⟨1, 1, "bin.000001", 100, [1], [], RecordType.snapshot, 86399⟩

/-- A table with a column create_time as a transaction sees it at the start of
day 7: a snapshot created at the end of day 0 and one created just now. -/
def weekTable : Table :=
  ⟨"create_time",
    [lateEveningSnapshot, ⟨2, 1, "bin.000002", 50, [2], [], RecordType.snapshot, 604800⟩], 3⟩

/-- Invariant of AUTO_INCREMENT: the counter is above every id in the table. -/
def Table.WF (t : Table) : Prop := ∀ r ∈ t.rows, r.id < t.autoInc

instance (t : Table) : Decidable t.WF := by
  unfold Table.WF
  infer_instance

/-! ## Name resolution of the statements -/

theorem unknownColumn_insertRefs (t : Table) : unknownColumn t insertRefs = none := by
  simp [unknownColumn, insertRefs, Table.columns]

theorem unknownColumn_selectSnapshotRefs (t : Table) :
    unknownColumn t selectSnapshotRefs = none := by
  simp [unknownColumn, selectSnapshotRefs, Table.columns]

theorem unknownColumn_selectIdRefs (t : Table) : unknownColumn t selectIdRefs = none := by
  simp [unknownColumn, selectIdRefs, Table.columns]

theorem unknownColumn_nil (t : Table) : unknownColumn t [] = none := by
  simp [unknownColumn]

theorem unknownColumn_deleteRefs (t : Table) :
    unknownColumn t deleteRefs =
      if t.timeColumn = "create_time" then none else some (Error.UnknownColumn "create_time") := by
  by_cases h : t.timeColumn = "create_time"
  · simp [unknownColumn, deleteRefs, Table.columns, h]
  · have h2 : ¬ ("create_time" = t.timeColumn) := fun e => h e.symm
    simp [unknownColumn, deleteRefs, Table.columns, h, h2]

/-! ## The latest snapshot -/

theorem lastSnapshot_cons (a : Record) (l : List Record) :
    lastSnapshot (a :: l) =
      match lastSnapshot l with
      | none => if a.type = RecordType.snapshot then some a else none
      | some b => if a.type = RecordType.snapshot ∧ b.id < a.id then some a else some b := by
  rw [lastSnapshot]

theorem lastSnapshot_mem {l : List Record} {r : Record} (h : lastSnapshot l = some r) :
    r ∈ l ∧ r.type = RecordType.snapshot := by
  induction l generalizing r with
  | nil => simp [lastSnapshot] at h
  | cons a l ih =>
    rw [lastSnapshot_cons] at h
    cases hrec : lastSnapshot l with
    | none =>
      rw [hrec] at h
      by_cases ha : a.type = RecordType.snapshot
      · simp [ha] at h
        subst h
        exact ⟨List.mem_cons_self _ _, ha⟩
      · simp [ha] at h
    | some b =>
      rw [hrec] at h
      have hb := ih hrec
      by_cases ha : a.type = RecordType.snapshot ∧ b.id < a.id
      · simp only [ha, and_self, if_true, Option.some.injEq] at h
        subst h
        exact ⟨List.mem_cons_self _ _, ha.1⟩
      · simp only [ha, if_false, Option.some.injEq] at h
        subst h
        exact ⟨List.mem_cons_of_mem _ hb.1, hb.2⟩

theorem lastSnapshot_eq_none {l : List Record} :
    lastSnapshot l = none ↔ ∀ s ∈ l, s.type ≠ RecordType.snapshot := by
  induction l with
  | nil => simp [lastSnapshot]
  | cons a l ih =>
    rw [lastSnapshot_cons]
    cases hrec : lastSnapshot l with
    | none =>
      have hl := ih.mp hrec
      by_cases ha : a.type = RecordType.snapshot
      · simp [ha]
      · simp only [ha, if_false, true_iff]
        intro s hs
        rcases List.mem_cons.mp hs with rfl | hmem
        · exact ha
        · exact hl s hmem
    | some b =>
      have hb := lastSnapshot_mem hrec
      show (if a.type = RecordType.snapshot ∧ b.id < a.id then some a else some b) = none ↔ _
      constructor
      · intro h
        split at h <;> simp at h
      · intro h
        exact absurd hb.2 (h b (List.mem_cons_of_mem _ hb.1))

theorem lastSnapshot_max {l : List Record} {r : Record} (h : lastSnapshot l = some r) :
    ∀ s ∈ l, s.type = RecordType.snapshot → s.id ≤ r.id := by
  induction l generalizing r with
  | nil => simp
  | cons a l ih =>
    rw [lastSnapshot_cons] at h
    intro s hs hsnap
    cases hrec : lastSnapshot l with
    | none =>
      rw [hrec] at h
      by_cases ha : a.type = RecordType.snapshot
      · simp [ha] at h
        subst h
        rcases List.mem_cons.mp hs with rfl | hmem
        · exact le_refl _
        · exact absurd hsnap (lastSnapshot_eq_none.mp hrec s hmem)
      · simp [ha] at h
    | some b =>
      rw [hrec] at h
      have hb := ih hrec
      by_cases ha : a.type = RecordType.snapshot ∧ b.id < a.id
      · simp only [ha, and_self, if_true, Option.some.injEq] at h
        subst h
        rcases List.mem_cons.mp hs with rfl | hmem
        · exact le_refl _
        · exact le_of_lt (lt_of_le_of_lt (hb s hmem hsnap) ha.2)
      · simp only [ha, if_false, Option.some.injEq] at h
        subst h
        rcases List.mem_cons.mp hs with rfl | hmem
        · by_contra hlt
          exact ha ⟨hsnap, lt_of_not_le hlt⟩
        · exact hb s hmem hsnap

/-- A snapshot row whose id is strictly above the id of every other row is the
latest snapshot. -/
theorem lastSnapshot_eq_of_top {l : List Record} {r : Record} (hr : r ∈ l)
    (hsnap : r.type = RecordType.snapshot) (htop : ∀ s ∈ l, s ≠ r → s.id < r.id) :
    lastSnapshot l = some r := by
  cases h : lastSnapshot l with
  | none => exact absurd hsnap (lastSnapshot_eq_none.mp h r hr)
  | some b =>
    have hb := lastSnapshot_mem h
    have hle := lastSnapshot_max h r hr hsnap
    by_cases hbr : b = r
    · rw [hbr]
    · exact absurd (htop b hb.1 hbr) (not_lt.mpr hle)

/-! ## The statements and purge -/

theorem execInsert_ok (env : Env) (tx : Table) (data : List Nat) (pos : Position)
    (h : env.insertErr = none) :
    execInsert env tx (some data) pos = (none, afterInsert env tx data pos) := by
  simp [execInsert, statementErr, h, unknownColumn_insertRefs]

/-- The INSERT of a nil payload fails and leaves the transaction as it was. -/
theorem execInsert_nil (env : Env) (tx : Table) (pos : Position) :
    (execInsert env tx none pos).1 ≠ none ∧ (execInsert env tx none pos).2 = tx := by
  cases hi : env.insertErr with
  | some c => simp [execInsert, statementErr, hi]
  | none => simp [execInsert, statementErr, hi, unknownColumn_insertRefs]

theorem execInsert_err (env : Env) (tx : Table) (data : ByteSlice) (pos : Position) (c : Nat)
    (h : env.insertErr = some c) :
    execInsert env tx data pos = (some (Error.Backend c), tx) := by
  simp [execInsert, statementErr, h]

theorem execDelete_ok (env : Env) (tx : Table) (n : Int) (h : env.deleteErr = none)
    (hcol : tx.timeColumn = "create_time") :
    execDelete env tx n =
      (none, ⟨tx.timeColumn, tx.rows.filter (fun r => !(expired env n r)), tx.autoInc⟩) := by
  simp [execDelete, statementErr, h, unknownColumn_deleteRefs, hcol]

theorem execDelete_unknown (env : Env) (tx : Table) (n : Int) (h : env.deleteErr = none)
    (hcol : tx.timeColumn ≠ "create_time") :
    execDelete env tx n = (some (Error.UnknownColumn "create_time"), tx) := by
  simp [execDelete, statementErr, h, unknownColumn_deleteRefs, hcol]

theorem execDelete_err (env : Env) (tx : Table) (n : Int) (c : Nat)
    (h : env.deleteErr = some c) :
    execDelete env tx n = (some (Error.Backend c), tx) := by
  simp [execDelete, statementErr, h]

/-- A DELETE that succeeds ran on a table with a column create_time, with no
injected failure, and kept exactly the rows that are not expired. -/
theorem execDelete_success {env : Env} {tx : Table} {n : Int}
    (h : (execDelete env tx n).1 = none) :
    env.deleteErr = none ∧ tx.timeColumn = "create_time" ∧
      (execDelete env tx n).2 =
        ⟨tx.timeColumn, tx.rows.filter (fun r => !(expired env n r)), tx.autoInc⟩ := by
  cases hd : env.deleteErr with
  | some c => rw [execDelete_err env tx n c hd] at h; simp at h
  | none =>
    by_cases hcol : tx.timeColumn = "create_time"
    · exact ⟨rfl, hcol, by rw [execDelete_ok env tx n hd hcol]⟩
    · rw [execDelete_unknown env tx n hd hcol] at h; simp at h

/-- A DELETE that fails leaves the rows of the transaction as they were. -/
theorem execDelete_failure {env : Env} {tx : Table} {n : Int}
    (h : (execDelete env tx n).1 ≠ none) : (execDelete env tx n).2 = tx := by
  cases hd : env.deleteErr with
  | some c => rw [execDelete_err env tx n c hd]
  | none =>
    by_cases hcol : tx.timeColumn = "create_time"
    · rw [execDelete_ok env tx n hd hcol] at h; simp at h
    · rw [execDelete_unknown env tx n hd hcol]

theorem scanLastSnapshotId_ok (env : Env) (tx : Table) (h : env.queryErr = none) :
    scanLastSnapshotId env tx =
      match lastSnapshot tx.rows with
      | none => (some Error.ErrNoRows, 0)
      | some r => (none, r.id) := by
  simp [scanLastSnapshotId, statementErr, h, unknownColumn_selectIdRefs]

theorem scanLastSnapshotId_err (env : Env) (tx : Table) (c : Nat) (h : env.queryErr = some c) :
    scanLastSnapshotId env tx = (some (Error.Backend c), 0) := by
  simp [scanLastSnapshotId, statementErr, h]

/-- Whatever purge returns, the table it leaves is the one it got or the one
its DELETE produced for the scanned lastSnapshotId. -/
theorem purge_table (env : Env) (tx : Table) :
    (purge env tx).2 = tx ∨
      ((purge env tx).1 = none ∧ tx.timeColumn = "create_time" ∧
        (purge env tx).2 =
          ⟨tx.timeColumn,
            tx.rows.filter (fun r => !(expired env (scanLastSnapshotId env tx).2 r)),
            tx.autoInc⟩) := by
  unfold purge
  by_cases hc : (scanLastSnapshotId env tx).1 ≠ none ∧
      (scanLastSnapshotId env tx).1 ≠ some Error.ErrNoRows
  · left
    rw [if_pos hc]
  · rw [if_neg hc]
    by_cases hd : (execDelete env tx (scanLastSnapshotId env tx).2).1 = none
    · right
      obtain ⟨_, hcol, heq⟩ := execDelete_success hd
      exact ⟨hd, hcol, heq⟩
    · left
      exact execDelete_failure hd

/-- A purge that returns nil scanned without a failure other than no rows and
ran its DELETE with success. -/
theorem purge_success {env : Env} {tx : Table} (h : (purge env tx).1 = none) :
    env.queryErr = none ∧ tx.timeColumn = "create_time" ∧
      (purge env tx).2 =
        ⟨tx.timeColumn,
          tx.rows.filter (fun r => !(expired env (scanLastSnapshotId env tx).2 r)),
          tx.autoInc⟩ := by
  unfold purge at h ⊢
  by_cases hc : (scanLastSnapshotId env tx).1 ≠ none ∧
      (scanLastSnapshotId env tx).1 ≠ some Error.ErrNoRows
  · rw [if_pos hc] at h
    exact absurd h hc.1
  · rw [if_neg hc] at h ⊢
    obtain ⟨_, hcol, heq⟩ := execDelete_success h
    refine ⟨?_, hcol, heq⟩
    cases hq : env.queryErr with
    | none => rfl
    | some c =>
      exfalso
      apply hc
      rw [scanLastSnapshotId_err env tx c hq]
      simp

/-- A purge that returns an error leaves the rows of the transaction as they
were. -/
theorem purge_failure {env : Env} {tx : Table} (h : (purge env tx).1 ≠ none) :
    (purge env tx).2 = tx := by
  rcases purge_table env tx with h1 | ⟨h2, _⟩
  · exact h1
  · exact absurd h2 h

/-! ## SaveSnapshot -/

/-- A SaveSnapshot that returns nil ran a purge that returned nil on the table
after the INSERT, and the table it leaves is the one that purge produced. -/
theorem SaveSnapshot_success {env : Env} {t : Table} {data : List Nat} {pos : Position}
    (h : (SaveSnapshot env t (some data) pos).1 = none) :
    (purge env (afterInsert env t data pos)).1 = none ∧
      (SaveSnapshot env t (some data) pos).2 = (purge env (afterInsert env t data pos)).2 := by
  unfold SaveSnapshot at h ⊢
  cases ho : env.openErr with
  | some c => simp [ho] at h
  | none =>
    cases hb : env.beginErr with
    | some c => simp [ho, hb] at h
    | none =>
      cases hi : env.insertErr with
      | some c => simp [ho, hb, execInsert_err env t (some data) pos c hi] at h
      | none =>
        simp only [ho, hb, execInsert_ok env t data pos hi] at h ⊢
        cases hp : (purge env (afterInsert env t data pos)).1 with
        | some e => simp [hp] at h
        | none =>
          simp only [hp] at h ⊢
          cases hcm : env.commitErr with
          | some c => simp [hcm] at h
          | none => simp

/-- A SaveSnapshot with a nil payload returns an error and leaves the rows of
the table as they were. -/
theorem SaveSnapshot_nil (env : Env) (t : Table) (pos : Position) :
    (SaveSnapshot env t none pos).1 ≠ none ∧ (SaveSnapshot env t none pos).2.rows = t.rows := by
  unfold SaveSnapshot
  cases ho : env.openErr with
  | some c => simp
  | none =>
    cases hb : env.beginErr with
    | some c => simp
    | none =>
      obtain ⟨h1, h2⟩ := execInsert_nil env t pos
      cases hins : (execInsert env t none pos).1 with
      | none => exact absurd hins h1
      | some e => simp [hins, h2, rollback]

/-- A SaveSnapshot that returns an error leaves the rows of the table as they
were before the call. -/
theorem SaveSnapshot_failure {env : Env} {t : Table} {data : ByteSlice} {pos : Position}
    (h : (SaveSnapshot env t data pos).1 ≠ none) :
    (SaveSnapshot env t data pos).2.rows = t.rows := by
  cases data with
  | none => exact (SaveSnapshot_nil env t pos).2
  | some data =>
    unfold SaveSnapshot at h ⊢
    cases ho : env.openErr with
    | some c => simp
    | none =>
      cases hb : env.beginErr with
      | some c => simp
      | none =>
        cases hi : env.insertErr with
        | some c => simp [execInsert_err env t (some data) pos c hi, rollback]
        | none =>
          simp only [ho, hb, execInsert_ok env t data pos hi] at h ⊢
          cases hp : (purge env (afterInsert env t data pos)).1 with
          | some e => simp [rollback]
          | none =>
            simp only [hp] at h ⊢
            cases hcm : env.commitErr with
            | some c => simp [rollback]
            | none => simp [hcm] at h

/-- With the counter above every id, the row just inserted is the latest
snapshot the transaction sees. -/
theorem lastSnapshot_afterInsert (env : Env) {t : Table} (data : List Nat) (pos : Position)
    (hwf : t.WF) :
    lastSnapshot (afterInsert env t data pos).rows = some (newRecord env t data pos) := by
  apply lastSnapshot_eq_of_top
  · simp [afterInsert]
  · rfl
  · intro s hs hne
    simp only [afterInsert, List.mem_append, List.mem_singleton] at hs
    rcases hs with hs | hs
    · exact hwf s hs
    · exact absurd hs hne

/-- With the counter above every id, a SaveSnapshot that returns nil leaves the
old rows whose creation date is less than 7 days before the current date,
followed by the new row. -/
theorem SaveSnapshot_success_table {env : Env} {t : Table} {data : List Nat} {pos : Position}
    (hwf : t.WF) (h : (SaveSnapshot env t (some data) pos).1 = none) :
    (SaveSnapshot env t (some data) pos).2 =
      ⟨t.timeColumn,
        t.rows.filter (fun r => !(decide (7 ≤ datediff env.now r.time))) ++
          [newRecord env t data pos],
        t.autoInc + 1⟩ := by
  obtain ⟨hp, heq⟩ := SaveSnapshot_success h
  obtain ⟨hq, _, hpe⟩ := purge_success hp
  rw [heq, hpe, scanLastSnapshotId_ok env _ hq, lastSnapshot_afterInsert env data pos hwf]
  simp only [afterInsert, List.filter_append, Table.mk.injEq, true_and, and_true]
  congr 1
  · apply List.filter_congr
    intro r hr
    have := hwf r hr
    simp [expired, newRecord, this]
  · simp [expired, newRecord]

/-- The auto-increment invariant is kept by a SaveSnapshot that returns nil. -/
theorem SaveSnapshot_success_WF {env : Env} {t : Table} {data : List Nat} {pos : Position}
    (hwf : t.WF) (h : (SaveSnapshot env t (some data) pos).1 = none) :
    (SaveSnapshot env t (some data) pos).2.WF := by
  rw [SaveSnapshot_success_table hwf h]
  intro r hr
  simp only [List.mem_append, List.mem_filter, List.mem_singleton] at hr
  rcases hr with ⟨hr, _⟩ | hr
  · have := hwf r hr
    show r.id < t.autoInc + 1
    omega
  · subst hr
    show t.autoInc < t.autoInc + 1
    omega

/-- With the counter above every id, after a SaveSnapshot that returns nil the
latest snapshot is the row it inserted. -/
theorem lastSnapshot_after_save {env : Env} {t : Table} {data : List Nat} {pos : Position}
    (hwf : t.WF) (h : (SaveSnapshot env t (some data) pos).1 = none) :
    lastSnapshot (SaveSnapshot env t (some data) pos).2.rows = some (newRecord env t data pos) := by
  rw [SaveSnapshot_success_table hwf h]
  apply lastSnapshot_eq_of_top
  · simp
  · rfl
  · intro s hs hne
    simp only [List.mem_append, List.mem_filter, List.mem_singleton] at hs
    rcases hs with ⟨hs, _⟩ | hs
    · exact hwf s hs
    · exact absurd hs hne

/-- A SaveSnapshot that returns nil was given a payload that is not nil. -/
theorem SaveSnapshot_success_some {env : Env} {t : Table} {data : ByteSlice} {pos : Position}
    (h : (SaveSnapshot env t data pos).1 = none) : ∃ bytes, data = some bytes := by
  cases data with
  | none => exact absurd h (SaveSnapshot_nil env t pos).1
  | some bytes => exact ⟨bytes, rfl⟩

/-! ## LoadLastSnapshot -/

theorem LoadLastSnapshot_of_last {env : Env} {t : Table} {r : Record}
    (ho : env.openErr = none) (hq : env.queryErr = none) (hr : lastSnapshot t.rows = some r) :
    LoadLastSnapshot env t = (some r.snapshot, ⟨r.server_id, r.name, r.pos⟩, none) := by
  simp [LoadLastSnapshot, scanLastSnapshot, statementErr, ho, hq,
    unknownColumn_selectSnapshotRefs, hr]

theorem LoadLastSnapshot_of_none {env : Env} {t : Table}
    (ho : env.openErr = none) (hq : env.queryErr = none) (hr : lastSnapshot t.rows = none) :
    LoadLastSnapshot env t = (none, Position.zero, none) := by
  simp [LoadLastSnapshot, scanLastSnapshot, statementErr, ho, hq,
    unknownColumn_selectSnapshotRefs, hr]

theorem LoadLastSnapshot_query_err {env : Env} {t : Table} {c : Nat}
    (ho : env.openErr = none) (hq : env.queryErr = some c) :
    LoadLastSnapshot env t = (none, Position.zero, some (Error.Backend c)) := by
  simp [LoadLastSnapshot, scanLastSnapshot, statementErr, ho, hq]

/-! ## Sequences of calls -/

theorem runCalls_of_lastSaved_none {calls : List (Env × Call)} (t : Table)
    (h : lastSaved calls = none) : (runCalls t calls).2 = t := by
  induction calls generalizing t with
  | nil => rfl
  | cons c rest ih =>
    rw [lastSaved] at h
    cases hrest : lastSaved rest with
    | some a => simp [hrest] at h
    | none =>
      rw [hrest] at h
      obtain ⟨e, call⟩ := c
      cases call with
      | SaveSnapshot data pos => simp at h
      | SaveStatement db statement pos =>
        simp only [runCalls, Call.run, SaveStatement]
        exact ih t hrest

/-- After a sequence of calls that all returned nil, the latest snapshot in the
table carries the arguments of the last SaveSnapshot call. -/
theorem runCalls_lastSnapshot {calls : List (Env × Call)} {t : Table} {data : ByteSlice}
    {pos : Position} (hwf : t.WF) (hok : (runCalls t calls).1 = true)
    (hlast : lastSaved calls = some (data, pos)) :
    (runCalls t calls).2.WF ∧
      ∃ r, lastSnapshot (runCalls t calls).2.rows = some r ∧ some r.snapshot = data ∧
        (⟨r.server_id, r.name, r.pos⟩ : Position) = pos := by
  induction calls generalizing t with
  | nil => simp [lastSaved] at hlast
  | cons c rest ih =>
    obtain ⟨e, call⟩ := c
    simp only [runCalls, Bool.and_eq_true, Option.isNone_iff_eq_none] at hok ⊢
    obtain ⟨hfirst, hrest⟩ := hok
    rw [lastSaved] at hlast
    have hwf1 : (call.run e t).2.WF := by
      cases call with
      | SaveSnapshot d p =>
        obtain ⟨bytes, hbytes⟩ := SaveSnapshot_success_some hfirst
        subst hbytes
        exact SaveSnapshot_success_WF hwf hfirst
      | SaveStatement db statement p => exact hwf
    cases hl : lastSaved rest with
    | some a =>
      rw [hl] at hlast
      simp only [Option.some.injEq] at hlast
      subst hlast
      exact ih hwf1 hrest hl
    | none =>
      rw [hl] at hlast
      rw [runCalls_of_lastSaved_none _ hl]
      refine ⟨hwf1, ?_⟩
      cases call with
      | SaveStatement db statement p => simp at hlast
      | SaveSnapshot d p =>
        simp only [Option.some.injEq, Prod.mk.injEq] at hlast
        obtain ⟨hd, hp⟩ := hlast
        subst hd hp
        obtain ⟨bytes, hbytes⟩ := SaveSnapshot_success_some hfirst
        subst hbytes
        refine ⟨newRecord e t bytes p, lastSnapshot_after_save hwf hfirst, rfl, rfl⟩

/-! ## The claims -/

/-- C1: after any sequence of SaveSnapshot and SaveStatement calls that all
return nil and contains a SaveSnapshot, LoadLastSnapshot on a healthy backend
returns, with a nil error, the payload and the Position of the last
SaveSnapshot call. The table starts with its auto-increment counter above every
id. The order of the Positions plays no part: the statement holds for every
order, the increasing one included. -/
theorem LoadLastSnapshot_after_saves (t : Table) (calls : List (Env × Call)) (env : Env)
    (data : ByteSlice) (pos : Position) (hwf : t.WF) (hok : (runCalls t calls).1 = true)
    (hlast : lastSaved calls = some (data, pos)) (ho : env.openErr = none)
    (hq : env.queryErr = none) :
    LoadLastSnapshot env (runCalls t calls).2 = (data, pos, none) := by
  obtain ⟨_, r, hr, hd, hp⟩ := runCalls_lastSnapshot hwf hok hlast
  rw [LoadLastSnapshot_of_last ho hq hr, hd, hp]

/-- Witness of C1: the scenario of two snapshots with a statement in between,
on a table that has a column create_time. -/
theorem LoadLastSnapshot_after_saves_witness :
    legacyTable.WF ∧ (runCalls legacyTable scenarioCalls).1 = true ∧
      lastSaved scenarioCalls = some (some [2], posS2) ∧
      LoadLastSnapshot (Env.healthy 400) (runCalls legacyTable scenarioCalls).2 =
        (some [2], posS2, none) :=
  ⟨by decide, by decide, by decide,
    LoadLastSnapshot_after_saves legacyTable scenarioCalls (Env.healthy 400) (some [2]) posS2
      (by decide) (by decide) (by decide) rfl rfl⟩

/-- Counterexample of C2: the table holds one snapshot, created at time 0; a
SaveSnapshot eight days later returns nil, scans the id of the row it has just
inserted (2, not 1) as lastSnapshotId, and the snapshot that was the latest
before the call is gone. -/
theorem SaveSnapshot_drops_previous_snapshot :
    lastSnapshot agedTable.rows = some oldSnapshot ∧
      (SaveSnapshot (Env.healthy 691200) agedTable (some [2]) posS2).1 = none ∧
      (scanLastSnapshotId (Env.healthy 691200)
        (afterInsert (Env.healthy 691200) agedTable [2] posS2)).2 = 2 ∧
      oldSnapshot ∉ (SaveSnapshot (Env.healthy 691200) agedTable (some [2]) posS2).2.rows := by
  decide

/-- C2, amended: on a table that holds a snapshot (and has its counter above
every id), a SaveSnapshot that returns nil was given a payload that is not nil,
scans as lastSnapshotId the id of the row it has just inserted, every older row
has an id strictly below it, the rows left are the new row and the older rows
whose creation date is less than 7 days before the current date, and so the
snapshot that was the latest before the call stays exactly when its creation
date is less than 7 days before the current date. -/
theorem SaveSnapshot_purges_below_new (env : Env) (t : Table) (data : ByteSlice)
    (pos : Position) (s : Record) (hwf : t.WF) (hs : lastSnapshot t.rows = some s)
    (h : (SaveSnapshot env t data pos).1 = none) :
    ∃ bytes, data = some bytes ∧
      (scanLastSnapshotId env (afterInsert env t bytes pos)).2 =
        (newRecord env t bytes pos).id ∧
      (∀ r ∈ t.rows, r.id < (newRecord env t bytes pos).id) ∧
      (∀ r, r ∈ (SaveSnapshot env t data pos).2.rows ↔
        r = newRecord env t bytes pos ∨ (r ∈ t.rows ∧ datediff env.now r.time < 7)) ∧
      (s ∈ (SaveSnapshot env t data pos).2.rows ↔ datediff env.now s.time < 7) := by
  obtain ⟨bytes, hbytes⟩ := SaveSnapshot_success_some h
  subst hbytes
  refine ⟨bytes, rfl, ?_⟩
  obtain ⟨hp, _⟩ := SaveSnapshot_success h
  obtain ⟨hq, _, _⟩ := purge_success hp
  have hmem : ∀ r, r ∈ (SaveSnapshot env t (some bytes) pos).2.rows ↔
      r = newRecord env t bytes pos ∨ (r ∈ t.rows ∧ datediff env.now r.time < 7) := by
    intro r
    rw [SaveSnapshot_success_table hwf h]
    simp only [List.mem_append, List.mem_filter, List.mem_singleton, Bool.not_eq_true',
      decide_eq_false_iff_not, not_le]
    tauto
  refine ⟨?_, fun r hr => hwf r hr, hmem, ?_⟩
  · rw [scanLastSnapshotId_ok env _ hq, lastSnapshot_afterInsert env bytes pos hwf]
  · have hsmem := (lastSnapshot_mem hs).1
    have hne : s ≠ newRecord env t bytes pos := by
      intro e
      have := hwf s hsmem
      rw [e] at this
      exact lt_irrefl _ this
    rw [hmem s]
    constructor
    · rintro (e | ⟨_, hlt⟩)
      · exact absurd e hne
      · exact hlt
    · intro hlt
      exact Or.inr ⟨hsmem, hlt⟩

/-- Witness of C2, amended: three days after the snapshot of agedTable was
created, a SaveSnapshot returns nil and the older snapshot stays. -/
theorem SaveSnapshot_purges_below_new_witness :
    agedTable.WF ∧ lastSnapshot agedTable.rows = some oldSnapshot ∧
      (SaveSnapshot (Env.healthy 259200) agedTable (some [2]) posS2).1 = none ∧
      (oldSnapshot ∈ (SaveSnapshot (Env.healthy 259200) agedTable (some [2]) posS2).2.rows ↔
        datediff (Env.healthy 259200).now oldSnapshot.time < 7) :=
  ⟨by decide, by decide, by decide,
    match SaveSnapshot_purges_below_new (Env.healthy 259200) agedTable (some [2]) posS2
      oldSnapshot (by decide) (by decide) (by decide) with
    | ⟨_, _, hrest⟩ => hrest.2.2.2⟩

/-- C3: purge never deletes the snapshot row with the greatest id nor any row
whose id is greater than or equal to that id: such a row of the table purge
gets is a row of the table purge leaves, whether purge returns nil or an
error. -/
theorem purge_keeps_latest_and_newer (env : Env) (tx : Table) (s r : Record)
    (hs : s ∈ tx.rows) (hsnap : s.type = RecordType.snapshot)
    (hmax : ∀ x ∈ tx.rows, x.type = RecordType.snapshot → x.id ≤ s.id)
    (hr : r ∈ tx.rows) (hge : s.id ≤ r.id) :
    r ∈ (purge env tx).2.rows := by
  rcases purge_table env tx with h | ⟨hnone, _, h⟩
  · rw [h]
    exact hr
  · rw [h]
    obtain ⟨hq, _, _⟩ := purge_success hnone
    have hbound : (scanLastSnapshotId env tx).2 ≤ s.id := by
      rw [scanLastSnapshotId_ok env tx hq]
      cases hl : lastSnapshot tx.rows with
      | none => exact absurd hsnap (lastSnapshot_eq_none.mp hl s hs)
      | some b => exact hmax b (lastSnapshot_mem hl).1 (lastSnapshot_mem hl).2
    show r ∈ List.filter _ tx.rows
    rw [List.mem_filter]
    refine ⟨hr, ?_⟩
    have : ¬ r.id < (scanLastSnapshotId env tx).2 := by omega
    simp [expired, this]

/-- Witness of C3: eight days after the rows of mixedTable were created, purge
deletes the first snapshot and leaves the statement row above the latest
snapshot. -/
theorem purge_keeps_latest_and_newer_witness :
    oldSnapshot ∉ (purge (Env.healthy 691200) mixedTable).2.rows ∧
      lateStatement ∈ (purge (Env.healthy 691200) mixedTable).2.rows :=
  ⟨by decide,
    purge_keeps_latest_and_newer (Env.healthy 691200) mixedTable
      ⟨2, 1, "bin.000001", 200, [2], [], RecordType.snapshot, 0⟩ lateStatement
      (by decide) (by decide) (by decide) (by decide) (by decide)⟩

/-- C4: SaveSnapshot is atomic. When it returns an error the rows of the table
are those from before the call. When it returns nil the payload was not nil,
the new snapshot row is in the table and the rows are those of the table with
the new row appended, less the rows that the DELETE of purge removes for the
lastSnapshotId that purge scanned, the id of the latest snapshot among them. -/
theorem SaveSnapshot_atomic (env : Env) (t : Table) (data : ByteSlice) (pos : Position) :
    ((SaveSnapshot env t data pos).1 ≠ none →
      (SaveSnapshot env t data pos).2.rows = t.rows) ∧
    ((SaveSnapshot env t data pos).1 = none →
      ∃ bytes, data = some bytes ∧
        newRecord env t bytes pos ∈ (SaveSnapshot env t data pos).2.rows ∧
        ∃ s, lastSnapshot (t.rows ++ [newRecord env t bytes pos]) = some s ∧
          (SaveSnapshot env t data pos).2.rows =
            (t.rows ++ [newRecord env t bytes pos]).filter
              (fun r => !(decide (r.id < s.id) && decide (7 ≤ datediff env.now r.time)))) := by
  refine ⟨SaveSnapshot_failure, fun h => ?_⟩
  obtain ⟨bytes, hbytes⟩ := SaveSnapshot_success_some h
  subst hbytes
  refine ⟨bytes, rfl, ?_⟩
  obtain ⟨hp, heq⟩ := SaveSnapshot_success h
  obtain ⟨hq, _, hpe⟩ := purge_success hp
  have hex : ∃ s, lastSnapshot (t.rows ++ [newRecord env t bytes pos]) = some s := by
    cases hl : lastSnapshot (t.rows ++ [newRecord env t bytes pos]) with
    | some s => exact ⟨s, rfl⟩
    | none =>
      exact absurd rfl (lastSnapshot_eq_none.mp hl (newRecord env t bytes pos) (by simp))
  obtain ⟨s, hs⟩ := hex
  have hrows : (SaveSnapshot env t (some bytes) pos).2.rows =
      (t.rows ++ [newRecord env t bytes pos]).filter
        (fun r => !(decide (r.id < s.id) && decide (7 ≤ datediff env.now r.time))) := by
    rw [heq, hpe, scanLastSnapshotId_ok env _ hq]
    have hs2 : lastSnapshot (afterInsert env t bytes pos).rows = some s := hs
    rw [hs2]
    rfl
  refine ⟨?_, s, hs, hrows⟩
  rw [hrows, List.mem_filter]
  refine ⟨by simp, ?_⟩
  have hdd : datediff env.now (newRecord env t bytes pos).time = 0 := by
    simp [datediff, newRecord]
  simp [hdd]

/-- Counterexample of C5: in the scenario all three saves return nil, yet
LoadNextStatement at the Position of the first snapshot does not return the
ALTER statement of database d at offset 200; and a SaveStatement that returned
nil on an empty table is not found by LoadNextStatement either. -/
theorem LoadNextStatement_misses_saved_statement :
    (runCalls legacyTable scenarioCalls).1 = true ∧
      LoadNextStatement (Env.healthy 400) (runCalls legacyTable scenarioCalls).2 posS1 ≠
        ("d", "ALTER TABLE t ADD COLUMN c", posDDL, none) ∧
      (SaveStatement (Env.healthy 200) legacyTable "d" "ALTER TABLE t ADD COLUMN c" posDDL).1 =
        none ∧
      LoadNextStatement (Env.healthy 400)
        (SaveStatement (Env.healthy 200) legacyTable "d" "ALTER TABLE t ADD COLUMN c" posDDL).2
        posS1 ≠ ("d", "ALTER TABLE t ADD COLUMN c", posDDL, none) := by
  decide

/-- C5, amended: for every database name d, statement text s and Positions q
and p, SaveStatement(d, s, p) returns nil and leaves the table as it was, and
afterwards LoadNextStatement(q) and LoadNextStatement(p) both return the
outcome for nothing found: empty database, empty statement, zero Position, nil
error. -/
theorem SaveStatement_stores_nothing (env env1 env2 : Env) (t : Table) (d s : String)
    (q p : Position) :
    SaveStatement env t d s p = (none, t) ∧
      LoadNextStatement env1 (SaveStatement env t d s p).2 q = ("", "", Position.zero, none) ∧
      LoadNextStatement env2 (SaveStatement env t d s p).2 p = ("", "", Position.zero, none) :=
  ⟨rfl, rfl, rfl⟩

/-- C6: a Reset that returns nil leaves the table without rows, and a following
LoadLastSnapshot on a healthy backend returns the outcome for nothing found:
the nil payload, the zero Position, nil error. -/
theorem Reset_then_LoadLastSnapshot (env env1 : Env) (t : Table)
    (h : (Reset env t).1 = none) (ho : env1.openErr = none) (hq : env1.queryErr = none) :
    (Reset env t).2.rows = [] ∧
      LoadLastSnapshot env1 (Reset env t).2 = (none, Position.zero, none) := by
  have hrows : (Reset env t).2.rows = [] := by
    unfold Reset at h ⊢
    cases ho2 : env.openErr with
    | some c => simp [ho2] at h
    | none =>
      cases hd : env.deleteErr with
      | some c => simp [ho2, hd, statementErr] at h
      | none => simp [hd, statementErr, unknownColumn_nil]
  refine ⟨hrows, LoadLastSnapshot_of_none ho hq ?_⟩
  rw [hrows]
  rfl

/-- Witness of C6: Reset on a table that holds three rows. -/
theorem Reset_then_LoadLastSnapshot_witness :
    (Reset (Env.healthy 500) mixedTable).1 = none ∧
      (Reset (Env.healthy 500) mixedTable).2.rows = [] ∧
      LoadLastSnapshot (Env.healthy 600) (Reset (Env.healthy 500) mixedTable).2 =
        (none, Position.zero, none) :=
  ⟨by decide, Reset_then_LoadLastSnapshot (Env.healthy 500) (Env.healthy 600) mixedTable
    (by decide) rfl rfl⟩

/-- C7: on a table without rows LoadLastSnapshot on a healthy backend returns
nil error, the nil payload and the zero Position; LoadNextStatement returns nil
error, empty database, empty statement and the zero Position for every
Position; and a failure of the query of LoadLastSnapshot is returned as an
error that is not nil. -/
theorem empty_store_not_found (env : Env) (t : Table) (p : Position) :
    (t.rows = [] → env.openErr = none → env.queryErr = none →
      LoadLastSnapshot env t = (none, Position.zero, none)) ∧
    LoadNextStatement env t p = ("", "", Position.zero, none) ∧
    (∀ c, env.queryErr = some c → (LoadLastSnapshot env t).2.2 ≠ none) := by
  refine ⟨?_, rfl, ?_⟩
  · intro hrows ho hq
    apply LoadLastSnapshot_of_none ho hq
    rw [hrows]
    rfl
  · intro c hq
    cases ho : env.openErr with
    | some c2 => simp [LoadLastSnapshot, ho]
    | none => simp [LoadLastSnapshot_query_err ho hq]

/-- Witness of C7: the table that initQuery creates, with a healthy backend and
with a backend whose query fails. -/
theorem empty_store_not_found_witness :
    LoadLastSnapshot (Env.healthy 0) Table.created = (none, Position.zero, none) ∧
      LoadNextStatement (Env.healthy 0) Table.created posS1 = ("", "", Position.zero, none) ∧
      (LoadLastSnapshot ⟨0, none, none, none, none, some 2006, none, none⟩ Table.created).2.2 ≠
        none :=
  ⟨(empty_store_not_found (Env.healthy 0) Table.created posS1).1 rfl rfl rfl,
    (empty_store_not_found (Env.healthy 0) Table.created posS1).2.1,
    (empty_store_not_found ⟨0, none, none, none, none, some 2006, none, none⟩ Table.created
      posS1).2.2 2006 rfl⟩

/-- C8: the outcome of LoadLastSnapshot for no snapshot is explicit. For a table
that holds a snapshot row, read on a healthy backend, and a table that holds
none, read on any backend, the values LoadLastSnapshot returns differ: the
payload returned for the first is a slice that is not nil, the payload returned
for the second is the nil slice. -/
theorem LoadLastSnapshot_not_found_explicit (env env0 : Env) (t t0 : Table) (r : Record)
    (ho : env.openErr = none) (hq : env.queryErr = none) (hr : r ∈ t.rows)
    (hsnap : r.type = RecordType.snapshot)
    (h0 : ∀ x ∈ t0.rows, x.type ≠ RecordType.snapshot) :
    LoadLastSnapshot env t ≠ LoadLastSnapshot env0 t0 ∧
      (LoadLastSnapshot env t).1 ≠ none ∧ (LoadLastSnapshot env0 t0).1 = none := by
  have hsome : (LoadLastSnapshot env t).1 ≠ none := by
    cases hl : lastSnapshot t.rows with
    | none => exact absurd hsnap (lastSnapshot_eq_none.mp hl r hr)
    | some s => simp [LoadLastSnapshot_of_last ho hq hl]
  have hnone : (LoadLastSnapshot env0 t0).1 = none := by
    have hl : lastSnapshot t0.rows = none := lastSnapshot_eq_none.mpr h0
    cases ho0 : env0.openErr with
    | some c => simp [LoadLastSnapshot, ho0]
    | none =>
      cases hq0 : env0.queryErr with
      | some c => simp [LoadLastSnapshot_query_err ho0 hq0]
      | none => simp [LoadLastSnapshot_of_none ho0 hq0 hl]
  refine ⟨?_, hsome, hnone⟩
  intro heq
  rw [heq] at hsome
  exact hsome hnone

/-- Witness of C8: a snapshot with an empty payload at the zero Position is
saved with success on an empty table; LoadLastSnapshot then returns the empty
slice, the zero Position and a nil error, which differs from the nil slice, the
zero Position and a nil error that it returns on the empty table. -/
theorem LoadLastSnapshot_not_found_explicit_witness :
    (SaveSnapshot (Env.healthy 100) legacyTable (some []) Position.zero).1 = none ∧
      LoadLastSnapshot (Env.healthy 200)
          (SaveSnapshot (Env.healthy 100) legacyTable (some []) Position.zero).2 =
        (some [], Position.zero, none) ∧
      LoadLastSnapshot (Env.healthy 200) legacyTable = (none, Position.zero, none) ∧
      LoadLastSnapshot (Env.healthy 200)
          (SaveSnapshot (Env.healthy 100) legacyTable (some []) Position.zero).2 ≠
        LoadLastSnapshot (Env.healthy 200) legacyTable :=
  ⟨by decide, by decide, by decide,
    (LoadLastSnapshot_not_found_explicit (Env.healthy 200) (Env.healthy 200)
      (SaveSnapshot (Env.healthy 100) legacyTable (some []) Position.zero).2 legacyTable
      (newRecord (Env.healthy 100) legacyTable [] Position.zero) rfl rfl (by decide) rfl
      (by decide)).1⟩

/-- Counterexample of C9: at the first second of day 7 purge returns nil and
deletes a row that was created at the last second of day 0, six days and one
second earlier. -/
theorem purge_deletes_row_younger_than_seven_days :
    lateEveningSnapshot ∈ weekTable.rows ∧
      (Env.healthy 604800).now - lateEveningSnapshot.time = 6 * 86400 + 1 ∧
      (purge (Env.healthy 604800) weekTable).1 = none ∧
      lateEveningSnapshot ∉ (purge (Env.healthy 604800) weekTable).2.rows := by
  decide

/-- C9, amended: purge deletes a row only if its id is below lastSnapshotId and
the current date is at least 7 days after the date of its creation, so that its
age exceeds 6 days; no row whose creation date is less than 7 days before the
current date is removed; and a purge that returns nil removes every row with
an id below lastSnapshotId whose age exceeds 7 days. -/
theorem purge_deletes_by_date (env : Env) (tx : Table) (r : Record) (hr : r ∈ tx.rows) :
    (r ∉ (purge env tx).2.rows →
      r.id < (scanLastSnapshotId env tx).2 ∧ 7 ≤ datediff env.now r.time ∧
        r.time + 6 * 86400 < env.now) ∧
    (datediff env.now r.time < 7 → r ∈ (purge env tx).2.rows) ∧
    ((purge env tx).1 = none → r.id < (scanLastSnapshotId env tx).2 →
      r.time + 7 * 86400 < env.now → r ∉ (purge env tx).2.rows) := by
  have hkey : r ∉ (purge env tx).2.rows →
      r.id < (scanLastSnapshotId env tx).2 ∧ 7 ≤ datediff env.now r.time := by
    intro hnot
    rcases purge_table env tx with h | ⟨_, _, h⟩
    · rw [h] at hnot
      exact absurd hr hnot
    · rw [h] at hnot
      have hnot2 : r ∉ List.filter (fun r => !(expired env (scanLastSnapshotId env tx).2 r))
          tx.rows := hnot
      rw [List.mem_filter] at hnot2
      simp only [hr, true_and, Bool.not_eq_true', Bool.not_eq_false] at hnot2
      simpa [expired] using hnot2
  refine ⟨fun hnot => ⟨(hkey hnot).1, (hkey hnot).2, ?_⟩, ?_, ?_⟩
  · have h7 := (hkey hnot).2
    unfold datediff at h7
    omega
  · intro hlt
    by_contra hnot
    have := (hkey hnot).2
    omega
  · intro hnone hid hage
    obtain ⟨_, _, h⟩ := purge_success hnone
    rw [h]
    show r ∉ List.filter _ tx.rows
    rw [List.mem_filter]
    have hdd : 7 ≤ datediff env.now r.time := by
      unfold datediff
      omega
    simp [expired, hid, hdd]

/-- Witness of C9, amended: the row of weekTable created at the end of day 0 is
removed by the purge at the start of day 7. -/
theorem purge_deletes_by_date_witness :
    lateEveningSnapshot ∈ weekTable.rows ∧
      lateEveningSnapshot ∉ (purge (Env.healthy 604800) weekTable).2.rows ∧
      lateEveningSnapshot.id < (scanLastSnapshotId (Env.healthy 604800) weekTable).2 ∧
      7 ≤ datediff (Env.healthy 604800).now lateEveningSnapshot.time ∧
      lateEveningSnapshot.time + 6 * 86400 < (Env.healthy 604800).now :=
  ⟨by decide, by decide,
    (purge_deletes_by_date (Env.healthy 604800) weekTable lateEveningSnapshot (by decide)).1
      (by decide)⟩

/-- C10: the DELETE of purge names the column create_time, which is not a column
of initQuery. NewMysqlStorage on a database without the table creates it with
the columns of initQuery, and on a table with these columns SaveSnapshot on a
healthy backend returns an error for every payload, Position and time and leaves
the rows as they were; for every payload that is not nil the error is that of
an unknown column create_time. -/
theorem SaveSnapshot_fails_on_created_table (now : Nat) (rows : List Record) (autoInc : Int)
    (data : ByteSlice) (bytes : List Nat) (pos : Position) :
    NewMysqlStorage (Env.healthy now) none = (none, some Table.created) ∧
      Table.created.columns = initQuery ∧
      "create_time" ∈ deleteRefs ∧ "create_time" ∉ initQuery ∧
      (SaveSnapshot (Env.healthy now) ⟨"time", rows, autoInc⟩ data pos).1 ≠ none ∧
      (SaveSnapshot (Env.healthy now) ⟨"time", rows, autoInc⟩ data pos).2.rows = rows ∧
      SaveSnapshot (Env.healthy now) ⟨"time", rows, autoInc⟩ (some bytes) pos =
        (some (Error.UnknownColumn "create_time"), ⟨"time", rows, autoInc + 1⟩) := by
  have hsome : ∀ b : List Nat,
      SaveSnapshot (Env.healthy now) ⟨"time", rows, autoInc⟩ (some b) pos =
        (some (Error.UnknownColumn "create_time"), ⟨"time", rows, autoInc + 1⟩) := by
    intro b
    have hins := execInsert_ok (Env.healthy now) ⟨"time", rows, autoInc⟩ b pos rfl
    have hscan : ¬ ((scanLastSnapshotId (Env.healthy now)
        (afterInsert (Env.healthy now) ⟨"time", rows, autoInc⟩ b pos)).1 ≠ none ∧
        (scanLastSnapshotId (Env.healthy now)
          (afterInsert (Env.healthy now) ⟨"time", rows, autoInc⟩ b pos)).1 ≠
            some Error.ErrNoRows) := by
      rw [scanLastSnapshotId_ok _ _ rfl]
      cases lastSnapshot (afterInsert (Env.healthy now) ⟨"time", rows, autoInc⟩ b pos).rows <;>
        simp
    have hcol : (afterInsert (Env.healthy now) ⟨"time", rows, autoInc⟩ b pos).timeColumn ≠
        "create_time" := by
      show "time" ≠ "create_time"
      decide
    have hpurge : purge (Env.healthy now)
        (afterInsert (Env.healthy now) ⟨"time", rows, autoInc⟩ b pos) =
        (some (Error.UnknownColumn "create_time"),
          afterInsert (Env.healthy now) ⟨"time", rows, autoInc⟩ b pos) := by
      unfold purge
      rw [if_neg hscan]
      exact execDelete_unknown _ _ _ rfl hcol
    rw [SaveSnapshot]
    simp only [show (Env.healthy now).openErr = none from rfl,
      show (Env.healthy now).beginErr = none from rfl, hins, hpurge]
    rfl
  have herr : (SaveSnapshot (Env.healthy now) ⟨"time", rows, autoInc⟩ data pos).1 ≠ none := by
    cases data with
    | none => exact (SaveSnapshot_nil _ _ _).1
    | some b => rw [hsome b]; simp
  exact ⟨rfl, rfl, by decide, by decide, herr, SaveSnapshot_failure herr, hsome bytes⟩

end Schema
